import Mathlib

/-!
Verification of the zap_optimized core: the `Field` model with its typed
constructors and the `Any` dynamic dispatcher (src/field.go), and the two
pooled-buffer variants (src/buffer/buffer.go and the unnamed buffer variant).

Go machine integers are modelled as `Int`/`Nat` with explicit two's-complement
reinterpretation where the source converts between signed and unsigned widths.
Float and complex payloads are carried as their raw bit patterns (`Nat`),
matching the source, which only ever boxes them (`math.Float64bits`) and never
performs floating-point arithmetic.
-/

namespace Zap

/-- The Field discriminant (`zapcore.FieldType`). One constructor per
discriminant used by src/field.go. -/
inductive FieldType where
  | SkipType
  | BinaryType
  | BoolType
  | ByteStringType
  | Complex128Type
  | Complex64Type
  | DurationType
  | Float64Type
  | Float32Type
  | Int64Type
  | Int32Type
  | Int16Type
  | Int8Type
  | StringType
  | TimeType
  | TimeFullType
  | Uint64Type
  | Uint32Type
  | Uint16Type
  | Uint8Type
  | UintptrType
  | ReflectType
  | NamespaceType
  | StringerType
  | ErrorType
  | ObjectMarshalerType
  | InlineMarshalerType
  | ArrayMarshalerType
  deriving DecidableEq

/-- A Go `complex128`, as the raw bit patterns of its two float64 parts. -/
structure Complex128 where
  re : Nat
  im : Nat
  deriving DecidableEq

/-- A Go `complex64`, as the raw bit patterns of its two float32 parts. -/
structure Complex64 where
  re : Nat
  im : Nat
  deriving DecidableEq

/-- A Go `time.Time`: its instant as (unbounded) nanoseconds since the Unix
epoch, plus its `*time.Location` as an abstract reference. `time.Time` can
represent instants far outside the int64-nanosecond range (seconds are a
separate int64), hence the unbounded `Int`. -/
structure GoTime where
  ns : Int
  loc : Nat
  deriving DecidableEq

/-- `t.Before(u)` compares instants. -/
def GoTime.Before (t u : GoTime) : Bool := t.ns < u.ns

/-- `t.After(u)` compares instants. -/
def GoTime.After (t u : GoTime) : Bool := u.ns < t.ns

/-- Two's-complement reinterpretation of a uint64 value as Go `int64(v)`. -/
def toInt64 (v : Nat) : Int :=
  if v % 2 ^ 64 < 2 ^ 63 then (v % 2 ^ 64 : Nat) else (v % 2 ^ 64 : Nat) - 2 ^ 64

/-- Reinterpretation of an int64 payload back as a uint64 bit pattern. -/
def toUInt64bits (i : Int) : Nat := (i % (2 ^ 64 : Int)).toNat

/-- `var _minTimeInt64 = time.Unix(0, math.MinInt64)`: the instant at
`-2^63` nanoseconds since the epoch (location irrelevant to comparisons). -/
def minTimeInt64 : GoTime := ⟨-(2 ^ 63), 0⟩

/-- `var _maxTimeInt64 = time.Unix(0, math.MaxInt64)`: the instant at
`2^63 - 1` nanoseconds since the epoch. -/
def maxTimeInt64 : GoTime := ⟨2 ^ 63 - 1, 0⟩

/-- `t.UnixNano()`: nanoseconds since the epoch as an int64; Go computes
`sec*1e9 + nsec` with two's-complement wraparound, so out-of-range instants
wrap (the source only calls this after guarding the range). -/
def GoTime.UnixNano (t : GoTime) : Int := toInt64 (t.ns % (2 ^ 64 : Int)).toNat

/-- The dynamic shape of a Go `interface{}` value, one constructor per dynamic
type that `Any`'s type switch distinguishes (src/field.go lines 435-569). A Go
type switch selects the first arm whose type matches the value's dynamic type,
so each constructor here is a distinct dynamic type. Values whose internal
structure no claim inspects are carried as opaque `Nat` references: the `[]Field`
payload (`vFields`), `map[string]interface{}` (`vMapSI`), object- and
array-marshaler implementations (`vObj`, `vArr`), values whose only relevant
capability is `fmt.Stringer` (`vStringerOnly`), `error` values (`vError`,
`vErrors`) and values matching no arm (`vOther`). -/
inductive AnyValue where
  | vObj (o : Nat)
  | vArr (a : Nat)
  | vFields (fs : Nat)
  | vBool (b : Bool)
  | vBoolp (p : Option Bool)
  | vBools (bs : List Bool)
  | vComplex128 (c : Complex128)
  | vComplex128p (p : Option Complex128)
  | vComplex128s (cs : List Complex128)
  | vComplex64 (c : Complex64)
  | vComplex64p (p : Option Complex64)
  | vComplex64s (cs : List Complex64)
  | vFloat64 (f : Nat)
  | vFloat64p (p : Option Nat)
  | vFloat64s (fs : List Nat)
  | vFloat32 (f : Nat)
  | vFloat32p (p : Option Nat)
  | vFloat32s (fs : List Nat)
  | vInt (i : Int)
  | vIntp (p : Option Int)
  | vInts (xs : List Int)
  | vInt64 (i : Int)
  | vInt64p (p : Option Int)
  | vInt64s (xs : List Int)
  | vInt32 (i : Int)
  | vInt32p (p : Option Int)
  | vInt32s (xs : List Int)
  | vInt16 (i : Int)
  | vInt16p (p : Option Int)
  | vInt16s (xs : List Int)
  | vInt8 (i : Int)
  | vInt8p (p : Option Int)
  | vInt8s (xs : List Int)
  | vString (s : String)
  | vStringp (p : Option String)
  | vStrings (ss : List String)
  | vUint (u : Nat)
  | vUintp (p : Option Nat)
  | vUints (us : List Nat)
  | vUint64 (u : Nat)
  | vUint64p (p : Option Nat)
  | vUint64s (us : List Nat)
  | vUint32 (u : Nat)
  | vUint32p (p : Option Nat)
  | vUint32s (us : List Nat)
  | vUint16 (u : Nat)
  | vUint16p (p : Option Nat)
  | vUint16s (us : List Nat)
  | vUint8 (u : Nat)
  | vUint8p (p : Option Nat)
  | vBytes (bs : List Nat)
  | vUintptr (u : Nat)
  | vUintptrp (p : Option Nat)
  | vUintptrs (us : List Nat)
  | vTime (t : GoTime)
  | vTimep (p : Option GoTime)
  | vTimes (ts : List GoTime)
  | vDuration (d : Int)
  | vDurationp (p : Option Int)
  | vDurations (ds : List Int)
  | vError (e : Nat)
  | vErrors (es : Nat)
  | vStringerOnly (s : Nat)
  | vMapSS (m : List (String × String))
  | vMapSI (m : Nat)
  | vOther (x : Nat)

/-- Whether a value's dynamic type implements `zapcore.ObjectMarshaler`.
Only dedicated marshaler implementations do: none of the built-in types
dispatched by `Any`'s concrete arms can carry a `MarshalLogObject` method. -/
def implementsObjectMarshaler : AnyValue → Bool
  | .vObj _ => true
  | _ => false

/-- Whether a value's dynamic type implements `zapcore.ArrayMarshaler`. -/
def implementsArrayMarshaler : AnyValue → Bool
  | .vArr _ => true
  | _ => false

/-- Whether a value's dynamic type implements `fmt.Stringer`. Besides
dedicated stringer values, Go's `time.Duration` and `time.Time` both carry a
`String() string` method and therefore satisfy the interface. -/
def implementsStringer : AnyValue → Bool
  | .vStringerOnly _ => true
  | .vDuration _ => true
  | .vTime _ => true
  | _ => false

/-- The values a `zapcore.ObjectMarshaler`-typed payload slot can hold in
this codebase: a dedicated marshaler implementation (`oref`), the
`mapStringStringObject` wrapper, the `mapStringInterfaceObject` wrapper, or
the `dictObject` wrapper around a `[]Field`. -/
inductive ObjVal where
  | oref (o : Nat)
  | omapSS (m : List (String × String))
  | omapSI (m : Nat)
  | odict (fs : Nat)
  deriving DecidableEq

/-- The values an array-marshaler payload slot can hold: a dedicated
implementation (`aref`), or one of the slice wrappers produced by the slice
constructors (which live outside src/; see the spec-modelled defs below). -/
inductive ArrVal where
  | aref (a : Nat)
  | abools (bs : List Bool)
  | acomplex128s (cs : List Complex128)
  | acomplex64s (cs : List Complex64)
  | afloat64s (fs : List Nat)
  | afloat32s (fs : List Nat)
  | aints (xs : List Int)
  | aint64s (xs : List Int)
  | aint32s (xs : List Int)
  | aint16s (xs : List Int)
  | aint8s (xs : List Int)
  | astrings (ss : List String)
  | auints (us : List Nat)
  | auint64s (us : List Nat)
  | auint32s (us : List Nat)
  | auint16s (us : List Nat)
  | auintptrs (us : List Nat)
  | atimes (ts : List GoTime)
  | adurations (ds : List Int)
  deriving DecidableEq

/-- A Field's `Interface` payload slot (`interface{}` in Go): nil, a stored
Go value (`ival`, used by `Reflect`, `Stringer`, `Binary` and the complex
constructors via the dedicated constructors below), a `*time.Location`
(`iloc`), a full `time.Time` (`itimeFull`), an object marshaler (`iobj`), an
array marshaler (`iarr`), raw bytes (`ibytes`), a complex number, or an
error reference. -/
inductive Iface where
  | inil
  | ival (v : AnyValue)
  | ibytes (bs : List Nat)
  | icomplex128 (c : Complex128)
  | icomplex64 (c : Complex64)
  | iloc (l : Nat)
  | itimeFull (t : GoTime)
  | iobj (o : ObjVal)
  | iarr (a : ArrVal)
  | ierr (e : Nat)
  | ierrs (es : Nat)

/-- `zapcore.Field`: key, discriminant, and the three payload slots
(`Integer int64`, `String string`, `Interface interface{}`). `ftype` is the
Go `Type` field (`type` is reserved in Lean), `str` the Go `String` field. -/
structure Field where
  key : String
  ftype : FieldType
  integer : Int
  str : String
  iface : Iface

/-- `Skip()` constructs a no-op field: only `Type` is set, all other struct
fields keep their Go zero values. -/
def Skip : Field := ⟨"", .SkipType, 0, "", .inil⟩

/-- `var nilReflectField = Field{Type: zapcore.ReflectType, Interface: nil}`:
the shared template for explicit-nil fields. -/
def nilReflectField : Field := ⟨"", .ReflectType, 0, "", .inil⟩

/-- `nilField(key)`: copies the shared template by value (Go struct
assignment) and sets the key on the copy only. -/
def nilField (key : String) : Field := { nilReflectField with key := key }

/-- `Binary(key, val)`. -/
def Binary (key : String) (val : List Nat) : Field :=
  ⟨key, .BinaryType, 0, "", .ibytes val⟩

/-- `Bool(key, val)` (named `BoolF`: `Bool` is taken by Lean's booleans):
`ival` is 0, set to 1 when `val` is true. -/
def BoolF (key : String) (val : Bool) : Field :=
  ⟨key, .BoolType, if val then 1 else 0, "", .inil⟩

/-- `boolToInt64(v)`. -/
def boolToInt64 (v : Bool) : Int := if v then 1 else 0

/-- `Boolp(key, val)`: nil pointer yields `nilField`. -/
def Boolp (key : String) (val : Option Bool) : Field :=
  match val with
  | none => nilField key
  | some v => ⟨key, .BoolType, boolToInt64 v, "", .inil⟩

/-- `ByteString(key, val)`. -/
def ByteString (key : String) (val : List Nat) : Field :=
  ⟨key, .ByteStringType, 0, "", .ibytes val⟩

/-- `Complex128(key, val)` (named `Complex128F`: `Complex128` is the payload
type above). -/
def Complex128F (key : String) (val : Complex128) : Field :=
  ⟨key, .Complex128Type, 0, "", .icomplex128 val⟩

/-- `Complex128p(key, val)`. -/
def Complex128p (key : String) (val : Option Complex128) : Field :=
  match val with
  | none => nilField key
  | some v => ⟨key, .Complex128Type, 0, "", .icomplex128 v⟩

/-- `Complex64(key, val)`. -/
def Complex64F (key : String) (val : Complex64) : Field :=
  ⟨key, .Complex64Type, 0, "", .icomplex64 val⟩

/-- `Complex64p(key, val)`. -/
def Complex64p (key : String) (val : Option Complex64) : Field :=
  match val with
  | none => nilField key
  | some v => ⟨key, .Complex64Type, 0, "", .icomplex64 v⟩

/-- `Float64(key, val)`: `Integer: int64(math.Float64bits(val))`. The value
is carried as its bit pattern, so `Float64bits` is the identity and the
int64 conversion is the two's-complement reinterpretation. -/
def Float64 (key : String) (val : Nat) : Field :=
  ⟨key, .Float64Type, toInt64 val, "", .inil⟩

/-- `Float64p(key, val)`. -/
def Float64p (key : String) (val : Option Nat) : Field :=
  match val with
  | none => nilField key
  | some v => ⟨key, .Float64Type, toInt64 v, "", .inil⟩

/-- `Float32(key, val)`: `Integer: int64(math.Float32bits(val))`; the uint32
bit pattern always fits in int64, so the conversion is value-preserving. -/
def Float32 (key : String) (val : Nat) : Field :=
  ⟨key, .Float32Type, (val : Int), "", .inil⟩

/-- `Float32p(key, val)`. -/
def Float32p (key : String) (val : Option Nat) : Field :=
  match val with
  | none => nilField key
  | some v => ⟨key, .Float32Type, (v : Int), "", .inil⟩

/-- `Int64(key, val)`. -/
def Int64F (key : String) (val : Int) : Field :=
  ⟨key, .Int64Type, val, "", .inil⟩

/-- `Int(key, val)` = `Int64(key, int64(val))` (named `IntF`: `Int` is taken
by Lean's integers). Go `int` is 64-bit here, so the conversion is the
identity. -/
def IntF (key : String) (val : Int) : Field := Int64F key val

/-- `Intp(key, val)`. -/
def Intp (key : String) (val : Option Int) : Field :=
  match val with
  | none => nilField key
  | some v => ⟨key, .Int64Type, v, "", .inil⟩

/-- `Int64p(key, val)`. -/
def Int64p (key : String) (val : Option Int) : Field :=
  match val with
  | none => nilField key
  | some v => ⟨key, .Int64Type, v, "", .inil⟩

/-- `Int32(key, val)`: `int64(val)` is value-preserving on int32. -/
def Int32 (key : String) (val : Int) : Field :=
  ⟨key, .Int32Type, val, "", .inil⟩

/-- `Int32p(key, val)`. -/
def Int32p (key : String) (val : Option Int) : Field :=
  match val with
  | none => nilField key
  | some v => ⟨key, .Int32Type, v, "", .inil⟩

/-- `Int16(key, val)`. -/
def Int16 (key : String) (val : Int) : Field :=
  ⟨key, .Int16Type, val, "", .inil⟩

/-- `Int16p(key, val)`. -/
def Int16p (key : String) (val : Option Int) : Field :=
  match val with
  | none => nilField key
  | some v => ⟨key, .Int16Type, v, "", .inil⟩

/-- `Int8(key, val)`. -/
def Int8 (key : String) (val : Int) : Field :=
  ⟨key, .Int8Type, val, "", .inil⟩

/-- `Int8p(key, val)`. -/
def Int8p (key : String) (val : Option Int) : Field :=
  match val with
  | none => nilField key
  | some v => ⟨key, .Int8Type, v, "", .inil⟩

/-- `String(key, val)` (named `StringF`: `String` is taken by Lean's
strings). -/
def StringF (key : String) (val : String) : Field :=
  ⟨key, .StringType, 0, val, .inil⟩

/-- `Stringp(key, val)`. -/
def Stringp (key : String) (val : Option String) : Field :=
  match val with
  | none => nilField key
  | some v => ⟨key, .StringType, 0, v, .inil⟩

/-- `Uint64(key, val)`: `Integer: int64(val)` — two's-complement
reinterpretation of the uint64. -/
def Uint64 (key : String) (val : Nat) : Field :=
  ⟨key, .Uint64Type, toInt64 val, "", .inil⟩

/-- `Uint(key, val)` = `Uint64(key, uint64(val))` (Go `uint` is 64-bit). -/
def Uint (key : String) (val : Nat) : Field := Uint64 key val

/-- `Uintp(key, val)`. -/
def Uintp (key : String) (val : Option Nat) : Field :=
  match val with
  | none => nilField key
  | some v => ⟨key, .Uint64Type, toInt64 v, "", .inil⟩

/-- `Uint64p(key, val)`. -/
def Uint64p (key : String) (val : Option Nat) : Field :=
  match val with
  | none => nilField key
  | some v => ⟨key, .Uint64Type, toInt64 v, "", .inil⟩

/-- `Uint32(key, val)`: `int64(val)` is value-preserving on uint32. -/
def Uint32 (key : String) (val : Nat) : Field :=
  ⟨key, .Uint32Type, (val : Int), "", .inil⟩

/-- `Uint32p(key, val)`. -/
def Uint32p (key : String) (val : Option Nat) : Field :=
  match val with
  | none => nilField key
  | some v => ⟨key, .Uint32Type, (v : Int), "", .inil⟩

/-- `Uint16(key, val)`. -/
def Uint16 (key : String) (val : Nat) : Field :=
  ⟨key, .Uint16Type, (val : Int), "", .inil⟩

/-- `Uint16p(key, val)`. -/
def Uint16p (key : String) (val : Option Nat) : Field :=
  match val with
  | none => nilField key
  | some v => ⟨key, .Uint16Type, (v : Int), "", .inil⟩

/-- `Uint8(key, val)`. -/
def Uint8 (key : String) (val : Nat) : Field :=
  ⟨key, .Uint8Type, (val : Int), "", .inil⟩

/-- `Uint8p(key, val)`. -/
def Uint8p (key : String) (val : Option Nat) : Field :=
  match val with
  | none => nilField key
  | some v => ⟨key, .Uint8Type, (v : Int), "", .inil⟩

/-- `Uintptr(key, val)`: `Integer: int64(val)` on a 64-bit uintptr. -/
def Uintptr (key : String) (val : Nat) : Field :=
  ⟨key, .UintptrType, toInt64 val, "", .inil⟩

/-- `Uintptrp(key, val)`. -/
def Uintptrp (key : String) (val : Option Nat) : Field :=
  match val with
  | none => nilField key
  | some v => ⟨key, .UintptrType, toInt64 v, "", .inil⟩

/-- `Reflect(key, val)`: the generic fallback; stores the value, possibly the
nil interface, in the `Interface` slot. -/
def Reflect (key : String) (val : Option AnyValue) : Field :=
  ⟨key, .ReflectType, 0, "", match val with | none => .inil | some v => .ival v⟩

/-- `Namespace(key)`. -/
def Namespace (key : String) : Field := ⟨key, .NamespaceType, 0, "", .inil⟩

/-- `Stringer(key, val)`: stores the `fmt.Stringer` value itself; its
`String` method is called lazily by the encoder. -/
def Stringer (key : String) (val : AnyValue) : Field :=
  ⟨key, .StringerType, 0, "", .ival val⟩

/-- `Time(key, val)` (named `TimeF`): out-of-range instants get the full
encoding, in-range instants the compact one (`Integer: val.UnixNano(),
Interface: val.Location()`). -/
def TimeF (key : String) (val : GoTime) : Field :=
  if val.Before minTimeInt64 || val.After maxTimeInt64 then
    ⟨key, .TimeFullType, 0, "", .itimeFull val⟩
  else
    ⟨key, .TimeType, val.UnixNano, "", .iloc val.loc⟩

/-- `Timep(key, val)`. -/
def Timep (key : String) (val : Option GoTime) : Field :=
  match val with
  | none => nilField key
  | some v => TimeF key v

/-- `Duration(key, val)`: `time.Duration` is an int64, `int64(val)` is the
identity. -/
def Duration (key : String) (val : Int) : Field :=
  ⟨key, .DurationType, val, "", .inil⟩

/-- `Durationp(key, val)`. -/
def Durationp (key : String) (val : Option Int) : Field :=
  match val with
  | none => nilField key
  | some v => ⟨key, .DurationType, v, "", .inil⟩

/-- `Object(key, val)`: a nil marshaler interface yields `nilField`. -/
def Object (key : String) (val : Option ObjVal) : Field :=
  match val with
  | none => nilField key
  | some v => ⟨key, .ObjectMarshalerType, 0, "", .iobj v⟩

/-- `Inline(val)`. -/
def Inline (val : ObjVal) : Field :=
  ⟨"", .InlineMarshalerType, 0, "", .iobj val⟩

/-- `dictField(key, val)`: wraps the `[]Field` in a `dictObject`; the wrapper
interface is never nil, so `Object` takes its non-nil branch. -/
def dictField (key : String) (val : Nat) : Field :=
  Object key (some (.odict val))

/-- `Dict(key, val...)`. -/
def Dict (key : String) (val : Nat) : Field := dictField key val

/-- Modelled from the spec: the `Array` constructor lives outside src/ (the
spec's §3 "array-marshaler reference" variant): it stores the marshaler
capability in the generic reference slot under the array-marshaler
discriminant. Named `ArrayF` (`Array` is taken by Lean). -/
def ArrayF (key : String) (val : ArrVal) : Field :=
  ⟨key, .ArrayMarshalerType, 0, "", .iarr val⟩

/-- Modelled from the spec: `NamedError` lives outside src/; per §4.2 step 4
a single error value becomes a named-error field carrying the error. -/
def NamedError (key : String) (val : Nat) : Field :=
  ⟨key, .ErrorType, 0, "", .ierr val⟩

/-- Modelled from the spec: `Errors` lives outside src/; per §4.2 step 4 a
sequence of error values becomes a named-error-style field carrying the
sequence. -/
def Errors (key : String) (val : Nat) : Field :=
  ⟨key, .ErrorType, 0, "", .ierrs val⟩

/-- Modelled from the spec: the slice constructors (`Bools` … `Durations`)
are the "(external, not detailed here) slice/sequence variant" of §4.2; each
wraps its slice as an array-marshaler capability. -/
def Bools (key : String) (bs : List Bool) : Field := ArrayF key (.abools bs)

/-- Modelled from the spec: slice constructor for `[]complex128`. -/
def Complex128s (key : String) (cs : List Complex128) : Field :=
  ArrayF key (.acomplex128s cs)

/-- Modelled from the spec: slice constructor for `[]complex64`. -/
def Complex64s (key : String) (cs : List Complex64) : Field :=
  ArrayF key (.acomplex64s cs)

/-- Modelled from the spec: slice constructor for `[]float64`. -/
def Float64s (key : String) (fs : List Nat) : Field := ArrayF key (.afloat64s fs)

/-- Modelled from the spec: slice constructor for `[]float32`. -/
def Float32s (key : String) (fs : List Nat) : Field := ArrayF key (.afloat32s fs)

/-- Modelled from the spec: slice constructor for `[]int`. -/
def Ints (key : String) (xs : List Int) : Field := ArrayF key (.aints xs)

/-- Modelled from the spec: slice constructor for `[]int64`. -/
def Int64s (key : String) (xs : List Int) : Field := ArrayF key (.aint64s xs)

/-- Modelled from the spec: slice constructor for `[]int32`. -/
def Int32s (key : String) (xs : List Int) : Field := ArrayF key (.aint32s xs)

/-- Modelled from the spec: slice constructor for `[]int16`. -/
def Int16s (key : String) (xs : List Int) : Field := ArrayF key (.aint16s xs)

/-- Modelled from the spec: slice constructor for `[]int8`. -/
def Int8s (key : String) (xs : List Int) : Field := ArrayF key (.aint8s xs)

/-- Modelled from the spec: slice constructor for `[]string`. -/
def Strings (key : String) (ss : List String) : Field := ArrayF key (.astrings ss)

/-- Modelled from the spec: slice constructor for `[]uint`. -/
def Uints (key : String) (us : List Nat) : Field := ArrayF key (.auints us)

/-- Modelled from the spec: slice constructor for `[]uint64`. -/
def Uint64s (key : String) (us : List Nat) : Field := ArrayF key (.auint64s us)

/-- Modelled from the spec: slice constructor for `[]uint32`. -/
def Uint32s (key : String) (us : List Nat) : Field := ArrayF key (.auint32s us)

/-- Modelled from the spec: slice constructor for `[]uint16`. -/
def Uint16s (key : String) (us : List Nat) : Field := ArrayF key (.auint16s us)

/-- Modelled from the spec: slice constructor for `[]uintptr`. -/
def Uintptrs (key : String) (us : List Nat) : Field := ArrayF key (.auintptrs us)

/-- Modelled from the spec: slice constructor for `[]time.Time`. -/
def Times (key : String) (ts : List GoTime) : Field := ArrayF key (.atimes ts)

/-- Modelled from the spec: slice constructor for `[]time.Duration`. -/
def Durations (key : String) (ds : List Int) : Field := ArrayF key (.adurations ds)

/-- `Any(key, value)` (src/field.go lines 435-569). `none` models the nil
`interface{}`, which matches no arm of the type switch (there is no
`case nil`) and falls to the `default` branch, i.e. `Reflect(key, nil)`.
The Go type switch takes the first arm matching the value's dynamic type;
the arms below are listed in source order. Because the dynamic types are
pairwise disjoint, each value's first (and only) matching arm is the one
shown: in particular `vDuration`/`vTime` reach their concrete arms (lines
551/545) before the `fmt.Stringer` arm (line 561) is even considered, while
`vObj`/`vArr` are caught by the leading capability arms. -/
def Any (key : String) (value : Option AnyValue) : Field :=
  match value with
  | none => Reflect key none
  | some v =>
    match v with
    | .vObj o => Object key (some (.oref o))
    | .vArr a => ArrayF key (.aref a)
    | .vFields fs => dictField key fs
    | .vBool b => BoolF key b
    | .vBoolp p => Boolp key p
    | .vBools bs => Bools key bs
    | .vComplex128 c => Complex128F key c
    | .vComplex128p p => Complex128p key p
    | .vComplex128s cs => Complex128s key cs
    | .vComplex64 c => Complex64F key c
    | .vComplex64p p => Complex64p key p
    | .vComplex64s cs => Complex64s key cs
    | .vFloat64 f => Float64 key f
    | .vFloat64p p => Float64p key p
    | .vFloat64s fs => Float64s key fs
    | .vFloat32 f => Float32 key f
    | .vFloat32p p => Float32p key p
    | .vFloat32s fs => Float32s key fs
    | .vInt i => IntF key i
    | .vIntp p => Intp key p
    | .vInts xs => Ints key xs
    | .vInt64 i => Int64F key i
    | .vInt64p p => Int64p key p
    | .vInt64s xs => Int64s key xs
    | .vInt32 i => Int32 key i
    | .vInt32p p => Int32p key p
    | .vInt32s xs => Int32s key xs
    | .vInt16 i => Int16 key i
    | .vInt16p p => Int16p key p
    | .vInt16s xs => Int16s key xs
    | .vInt8 i => Int8 key i
    | .vInt8p p => Int8p key p
    | .vInt8s xs => Int8s key xs
    | .vString s => StringF key s
    | .vStringp p => Stringp key p
    | .vStrings ss => Strings key ss
    | .vUint u => Uint key u
    | .vUintp p => Uintp key p
    | .vUints us => Uints key us
    | .vUint64 u => Uint64 key u
    | .vUint64p p => Uint64p key p
    | .vUint64s us => Uint64s key us
    | .vUint32 u => Uint32 key u
    | .vUint32p p => Uint32p key p
    | .vUint32s us => Uint32s key us
    | .vUint16 u => Uint16 key u
    | .vUint16p p => Uint16p key p
    | .vUint16s us => Uint16s key us
    | .vUint8 u => Uint8 key u
    | .vUint8p p => Uint8p key p
    | .vBytes bs => Binary key bs
    | .vUintptr u => Uintptr key u
    | .vUintptrp p => Uintptrp key p
    | .vUintptrs us => Uintptrs key us
    | .vTime t => TimeF key t
    | .vTimep p => Timep key p
    | .vTimes ts => Times key ts
    | .vDuration d => Duration key d
    | .vDurationp p => Durationp key p
    | .vDurations ds => Durations key ds
    | .vError e => NamedError key e
    | .vErrors es => Errors key es
    | .vStringerOnly s => Stringer key (.vStringerOnly s)
    | .vMapSS m => Object key (some (.omapSS m))
    | .vMapSI m => Object key (some (.omapSI m))
    | .vOther x => Reflect key (some (.vOther x))

end Zap

/-! The pooled-buffer variant of src/buffer/buffer.go: plain appends, a
capacity-trimming `Free`. `Buffer.data` is the logical content
`bs[0:len(bs)]`; `Buffer.cap` is the backing capacity `cap(bs)`. The append
operations use Go's builtin `append`, whose capacity-growth policy is
runtime-internal, so they are modelled on content and leave `cap` abstract;
`Free`, which branches on the capacity, takes it as part of the state. -/

namespace ZapBuffer

/-- `_size = 1024`: default buffer capacity. -/
def size : Nat := 1024

/-- `_minSize = 64`. -/
def minSize : Nat := 64

/-- `_maxExcessCap = 4`: maximum excess-capacity ratio before trimming. -/
def maxExcessCap : Nat := 4

/-- The buffer: logical content plus backing capacity (the pool reference is
modelled as the explicit `pool` argument of `Free`). -/
structure Buffer where
  data : List Nat
  cap : Nat
  deriving DecidableEq

/-- `AppendByte(v)`: `b.bs = append(b.bs, v)`. -/
def AppendByte (b : Buffer) (v : Nat) : Buffer :=
  { b with data := b.data ++ [v] }

/-- `AppendBytes(v)`: no-op on empty input, else `append(b.bs, v...)`. -/
def AppendBytes (b : Buffer) (v : List Nat) : Buffer :=
  if v.length = 0 then b else { b with data := b.data ++ v }

/-- `AppendString(s)`: no-op on empty input, else `append(b.bs, s...)`
(strings are byte sequences). -/
def AppendString (b : Buffer) (s : List Nat) : Buffer :=
  if s.length = 0 then b else { b with data := b.data ++ s }

/-- `Len()`. -/
def Len (b : Buffer) : Nat := b.data.length

/-- `Cap()`. -/
def Cap (b : Buffer) : Nat := b.cap

/-- `Bytes()`. -/
def Bytes (b : Buffer) : List Nat := b.data

/-- `Reset()`: `b.bs = b.bs[:0]`, keeping the backing array. -/
def Reset (b : Buffer) : Buffer := { b with data := [] }

/-- `Pool.put(b)`: the pool as the list of returned buffers. -/
def put (pool : List Buffer) (b : Buffer) : List Buffer := b :: pool

/-- `Free()` (src/buffer/buffer.go lines 190-207): trim the buffer when its
capacity exceeds `_size*_maxExcessCap`, else reset in place when non-empty,
then return it to the pool. -/
def Free (pool : List Buffer) (b : Buffer) : List Buffer :=
  if b.cap > size * maxExcessCap then
    put pool { data := [], cap := size }
  else if b.data.length > 0 then
    put pool (Reset b)
  else
    put pool b

/-- One append call, for reasoning about arbitrary call sequences. -/
inductive Op where
  | byte (v : Nat)
  | bytes (v : List Nat)
  | str (s : List Nat)

/-- Execute one append call. -/
def applyOp (b : Buffer) : Op → Buffer
  | .byte v => AppendByte b v
  | .bytes v => AppendBytes b v
  | .str s => AppendString b s

/-- Execute a sequence of append calls in order. -/
def run (b : Buffer) (ops : List Op) : Buffer := ops.foldl applyOp b

/-- The bytes one call appends. -/
def opBytes : Op → List Nat
  | .byte v => [v]
  | .bytes v => v
  | .str s => s

/-- The concatenation, in order, of all bytes a call sequence appends. -/
def opsBytes : List Op → List Nat
  | [] => []
  | op :: ops => opBytes op ++ opsBytes ops

theorem applyOp_data (b : Buffer) (op : Op) :
    applyOp b op = { b with data := b.data ++ opBytes op } := by
  cases op with
  | byte v => rfl
  | bytes v =>
    simp only [applyOp, AppendBytes, opBytes]
    split
    · next h => simp_all [List.length_eq_zero]
    · rfl
  | str s =>
    simp only [applyOp, AppendString, opBytes]
    split
    · next h => simp_all [List.length_eq_zero]
    · rfl

theorem run_data (ops : List Op) : ∀ b : Buffer,
    run b ops = { b with data := b.data ++ opsBytes ops } := by
  induction ops with
  | nil => intro b; simp [run, opsBytes]
  | cons op ops ih =>
    intro b
    simp only [run, List.foldl_cons, opsBytes]
    have := ih (applyOp b op)
    simp only [run] at this
    rw [this, applyOp_data]
    simp

theorem opsBytes_length (ops : List Op) :
    (opsBytes ops).length = (ops.map (fun op => (opBytes op).length)).sum := by
  induction ops with
  | nil => rfl
  | cons op ops ih => simp [opsBytes, ih]

end ZapBuffer

/-! The unnamed pooled-buffer variant (src/unnamed/part_000): the optimized
`AppendString` with explicit capacity management, and a `Free` that returns
the buffer to the pool unchanged. Same state model as `ZapBuffer.Buffer`. -/

namespace ZapBufferOpt

/-- `_size = 1024`. -/
def size : Nat := 1024

/-- The buffer: logical content plus backing capacity. -/
structure Buffer where
  data : List Nat
  cap : Nat
  deriving DecidableEq

/-- `AppendBytes(v)` of this variant: no empty-input guard. -/
def AppendBytes (b : Buffer) (v : List Nat) : Buffer :=
  { b with data := b.data ++ v }

/-- The optimized `AppendString(s)` (src/unnamed/part_000 lines 60-95).
Empty fast path; `capLeft := cap(b.bs) - l` (an `int`, hence the `Int`
subtraction); when capacity suffices, `newSlice := b.bs[:l+needed]` followed
by `copy(newSlice[l:], s)` overwrites the garbage bytes past `l` with `s`,
so the content becomes `data ++ s` with the capacity untouched; otherwise a
fresh backing array of capacity `max(2*cap, l+needed, _size)` is allocated
and both parts are copied into it. The second `needed == 0` guard is dead
code kept from the source. -/
def AppendString (b : Buffer) (s : List Nat) : Buffer :=
  if s.length = 0 then b
  else
    let l := b.data.length
    let needed := s.length
    let capLeft : Int := (b.cap : Int) - (l : Int)
    if needed = 0 then b
    else if capLeft ≥ (needed : Int) then
      { b with data := b.data ++ s }
    else
      let newCap0 := b.cap * 2
      let newCap1 := if newCap0 < l + needed then l + needed else newCap0
      let newCap := if newCap1 < size then size else newCap1
      { data := b.data ++ s, cap := newCap }

/-- `Free()` of this variant (src/unnamed/part_000 lines 209-211): returns
the buffer to its pool with no trimming and no reset. -/
def Free (pool : List Buffer) (b : Buffer) : List Buffer := b :: pool

end ZapBufferOpt

/-- In the int64-nanosecond range, `UnixNano` returns the instant exactly
(the wraparound reinterpretation is the identity there). -/
theorem Zap.unixNano_of_range (t : Zap.GoTime) (h1 : -(2 ^ 63) ≤ t.ns)
    (h2 : t.ns ≤ 2 ^ 63 - 1) : t.UnixNano = t.ns := by
  unfold Zap.GoTime.UnixNano Zap.toInt64
  split <;> omega

/-- C10: `Object(key, nil)` returns the nil-representation field — the
reflected-variant discriminant with nil payload and the given key — not an
object-marshaler field with a nil reference; and `Any(key, v)` on a nil
marshaler interface (the nil `interface{}`, which matches no switch arm and
falls to the `Reflect` default) yields the same nil representation. -/
theorem C10_object_nil (key : String) :
    Zap.Object key none = Zap.nilField key ∧
    (Zap.Object key none).ftype = .ReflectType ∧
    (Zap.Object key none).iface = .inil ∧
    (Zap.Object key none).ftype ≠ .ObjectMarshalerType ∧
    Zap.Any key none = Zap.nilField key :=
  ⟨rfl, rfl, rfl, fun h => Zap.FieldType.noConfusion h, rfl⟩

/-- C6: every pointer-typed constructor maps a nil pointer to the designated
nil representation (`nilField`: reflected-variant discriminant, nil payload,
requested key) and a non-nil pointer to exactly the field the corresponding
non-pointer constructor builds from the dereferenced value. -/
theorem C6_pointer_constructors (key : String) (b : Bool) (i : Int)
    (s : String) (u : Nat) (f8 f4 : Nat) (c8 : Zap.Complex128)
    (c4 : Zap.Complex64) (t : Zap.GoTime) (d : Int) :
    Zap.nilField key = ⟨key, .ReflectType, 0, "", .inil⟩ ∧
    Zap.Boolp key none = Zap.nilField key ∧
    Zap.Boolp key (some b) = Zap.BoolF key b ∧
    Zap.Intp key none = Zap.nilField key ∧
    Zap.Intp key (some i) = Zap.IntF key i ∧
    Zap.Int64p key none = Zap.nilField key ∧
    Zap.Int64p key (some i) = Zap.Int64F key i ∧
    Zap.Int32p key none = Zap.nilField key ∧
    Zap.Int32p key (some i) = Zap.Int32 key i ∧
    Zap.Int16p key none = Zap.nilField key ∧
    Zap.Int16p key (some i) = Zap.Int16 key i ∧
    Zap.Int8p key none = Zap.nilField key ∧
    Zap.Int8p key (some i) = Zap.Int8 key i ∧
    Zap.Stringp key none = Zap.nilField key ∧
    Zap.Stringp key (some s) = Zap.StringF key s ∧
    Zap.Uintp key none = Zap.nilField key ∧
    Zap.Uintp key (some u) = Zap.Uint key u ∧
    Zap.Uint64p key none = Zap.nilField key ∧
    Zap.Uint64p key (some u) = Zap.Uint64 key u ∧
    Zap.Uint32p key none = Zap.nilField key ∧
    Zap.Uint32p key (some u) = Zap.Uint32 key u ∧
    Zap.Uint16p key none = Zap.nilField key ∧
    Zap.Uint16p key (some u) = Zap.Uint16 key u ∧
    Zap.Uint8p key none = Zap.nilField key ∧
    Zap.Uint8p key (some u) = Zap.Uint8 key u ∧
    Zap.Uintptrp key none = Zap.nilField key ∧
    Zap.Uintptrp key (some u) = Zap.Uintptr key u ∧
    Zap.Float64p key none = Zap.nilField key ∧
    Zap.Float64p key (some f8) = Zap.Float64 key f8 ∧
    Zap.Float32p key none = Zap.nilField key ∧
    Zap.Float32p key (some f4) = Zap.Float32 key f4 ∧
    Zap.Complex128p key none = Zap.nilField key ∧
    Zap.Complex128p key (some c8) = Zap.Complex128F key c8 ∧
    Zap.Complex64p key none = Zap.nilField key ∧
    Zap.Complex64p key (some c4) = Zap.Complex64F key c4 ∧
    Zap.Timep key none = Zap.nilField key ∧
    Zap.Timep key (some t) = Zap.TimeF key t ∧
    Zap.Durationp key none = Zap.nilField key ∧
    Zap.Durationp key (some d) = Zap.Duration key d :=
  ⟨rfl, rfl, rfl, rfl, rfl, rfl, rfl, rfl, rfl, rfl, rfl, rfl, rfl, rfl,
   rfl, rfl, rfl, rfl, rfl, rfl, rfl, rfl, rfl, rfl, rfl, rfl, rfl, rfl,
   rfl, rfl, rfl, rfl, rfl, rfl, rfl, rfl, rfl, rfl, rfl⟩

/-- C2: for every primitive constructor (including the pointer forms from
src/field.go and the spec-modelled slice forms), dispatching through `Any`
on a value of exactly that static type yields the very field the
constructor builds — same discriminant, key, and payload. `[]byte`/`[]uint8`
is the one slice of a primitive with its own non-array treatment: per the
spec's §4.2 "byte sequence (treated as binary)", it round-trips through
`Binary`. A time or duration value also implements the stringer capability,
yet still round-trips through its concrete constructor (see C1). -/
theorem C2_any_roundtrip (key : String) (b : Bool) (pb : Option Bool)
    (lb : List Bool) (c8 : Zap.Complex128) (pc8 : Option Zap.Complex128)
    (lc8 : List Zap.Complex128) (c4 : Zap.Complex64)
    (pc4 : Option Zap.Complex64) (lc4 : List Zap.Complex64)
    (f8 : Nat) (pf8 : Option Nat) (lf8 : List Nat)
    (f4 : Nat) (pf4 : Option Nat) (lf4 : List Nat)
    (i : Int) (pi : Option Int) (li : List Int)
    (s : String) (ps : Option String) (ls : List String)
    (u : Nat) (pu : Option Nat) (lu : List Nat)
    (bs : List Nat) (t : Zap.GoTime) (pt : Option Zap.GoTime)
    (lt : List Zap.GoTime) (d : Int) (pd : Option Int) (ld : List Int) :
    Zap.Any key (some (.vBool b)) = Zap.BoolF key b ∧
    Zap.Any key (some (.vBoolp pb)) = Zap.Boolp key pb ∧
    Zap.Any key (some (.vBools lb)) = Zap.Bools key lb ∧
    Zap.Any key (some (.vComplex128 c8)) = Zap.Complex128F key c8 ∧
    Zap.Any key (some (.vComplex128p pc8)) = Zap.Complex128p key pc8 ∧
    Zap.Any key (some (.vComplex128s lc8)) = Zap.Complex128s key lc8 ∧
    Zap.Any key (some (.vComplex64 c4)) = Zap.Complex64F key c4 ∧
    Zap.Any key (some (.vComplex64p pc4)) = Zap.Complex64p key pc4 ∧
    Zap.Any key (some (.vComplex64s lc4)) = Zap.Complex64s key lc4 ∧
    Zap.Any key (some (.vFloat64 f8)) = Zap.Float64 key f8 ∧
    Zap.Any key (some (.vFloat64p pf8)) = Zap.Float64p key pf8 ∧
    Zap.Any key (some (.vFloat64s lf8)) = Zap.Float64s key lf8 ∧
    Zap.Any key (some (.vFloat32 f4)) = Zap.Float32 key f4 ∧
    Zap.Any key (some (.vFloat32p pf4)) = Zap.Float32p key pf4 ∧
    Zap.Any key (some (.vFloat32s lf4)) = Zap.Float32s key lf4 ∧
    Zap.Any key (some (.vInt i)) = Zap.IntF key i ∧
    Zap.Any key (some (.vIntp pi)) = Zap.Intp key pi ∧
    Zap.Any key (some (.vInts li)) = Zap.Ints key li ∧
    Zap.Any key (some (.vInt64 i)) = Zap.Int64F key i ∧
    Zap.Any key (some (.vInt64p pi)) = Zap.Int64p key pi ∧
    Zap.Any key (some (.vInt64s li)) = Zap.Int64s key li ∧
    Zap.Any key (some (.vInt32 i)) = Zap.Int32 key i ∧
    Zap.Any key (some (.vInt32p pi)) = Zap.Int32p key pi ∧
    Zap.Any key (some (.vInt32s li)) = Zap.Int32s key li ∧
    Zap.Any key (some (.vInt16 i)) = Zap.Int16 key i ∧
    Zap.Any key (some (.vInt16p pi)) = Zap.Int16p key pi ∧
    Zap.Any key (some (.vInt16s li)) = Zap.Int16s key li ∧
    Zap.Any key (some (.vInt8 i)) = Zap.Int8 key i ∧
    Zap.Any key (some (.vInt8p pi)) = Zap.Int8p key pi ∧
    Zap.Any key (some (.vInt8s li)) = Zap.Int8s key li ∧
    Zap.Any key (some (.vString s)) = Zap.StringF key s ∧
    Zap.Any key (some (.vStringp ps)) = Zap.Stringp key ps ∧
    Zap.Any key (some (.vStrings ls)) = Zap.Strings key ls ∧
    Zap.Any key (some (.vUint u)) = Zap.Uint key u ∧
    Zap.Any key (some (.vUintp pu)) = Zap.Uintp key pu ∧
    Zap.Any key (some (.vUints lu)) = Zap.Uints key lu ∧
    Zap.Any key (some (.vUint64 u)) = Zap.Uint64 key u ∧
    Zap.Any key (some (.vUint64p pu)) = Zap.Uint64p key pu ∧
    Zap.Any key (some (.vUint64s lu)) = Zap.Uint64s key lu ∧
    Zap.Any key (some (.vUint32 u)) = Zap.Uint32 key u ∧
    Zap.Any key (some (.vUint32p pu)) = Zap.Uint32p key pu ∧
    Zap.Any key (some (.vUint32s lu)) = Zap.Uint32s key lu ∧
    Zap.Any key (some (.vUint16 u)) = Zap.Uint16 key u ∧
    Zap.Any key (some (.vUint16p pu)) = Zap.Uint16p key pu ∧
    Zap.Any key (some (.vUint16s lu)) = Zap.Uint16s key lu ∧
    Zap.Any key (some (.vUint8 u)) = Zap.Uint8 key u ∧
    Zap.Any key (some (.vUint8p pu)) = Zap.Uint8p key pu ∧
    Zap.Any key (some (.vBytes bs)) = Zap.Binary key bs ∧
    Zap.Any key (some (.vUintptr u)) = Zap.Uintptr key u ∧
    Zap.Any key (some (.vUintptrp pu)) = Zap.Uintptrp key pu ∧
    Zap.Any key (some (.vUintptrs lu)) = Zap.Uintptrs key lu ∧
    Zap.Any key (some (.vTime t)) = Zap.TimeF key t ∧
    Zap.Any key (some (.vTimep pt)) = Zap.Timep key pt ∧
    Zap.Any key (some (.vTimes lt)) = Zap.Times key lt ∧
    Zap.Any key (some (.vDuration d)) = Zap.Duration key d ∧
    Zap.Any key (some (.vDurationp pd)) = Zap.Durationp key pd ∧
    Zap.Any key (some (.vDurations ld)) = Zap.Durations key ld :=
  ⟨rfl, rfl, rfl, rfl, rfl, rfl, rfl, rfl, rfl, rfl, rfl, rfl, rfl, rfl,
   rfl, rfl, rfl, rfl, rfl, rfl, rfl, rfl, rfl, rfl, rfl, rfl, rfl, rfl,
   rfl, rfl, rfl, rfl, rfl, rfl, rfl, rfl, rfl, rfl, rfl, rfl, rfl, rfl,
   rfl, rfl, rfl, rfl, rfl, rfl, rfl, rfl, rfl, rfl, rfl, rfl, rfl, rfl,
   rfl⟩

/-- C1, counterexample: the claim "capability checks precede all
concrete-type checks" fails for the stringer capability. A `time.Duration`
value implements `fmt.Stringer`, yet `Any` returns the `Duration` field,
not the `Stringer` field: the `fmt.Stringer` arm sits at line 561 of
src/field.go, after every concrete-type arm (`time.Duration` is matched at
line 551). -/
theorem C1_counterexample :
    Zap.implementsStringer (.vDuration 3) = true ∧
    Zap.Any "k" (some (.vDuration 3)) = Zap.Duration "k" 3 ∧
    Zap.Any "k" (some (.vDuration 3)) ≠ Zap.Stringer "k" (.vDuration 3) ∧
    (Zap.Any "k" (some (.vDuration 3))).ftype ≠ .StringerType :=
  ⟨rfl, rfl,
   fun h => Zap.FieldType.noConfusion (congrArg Zap.Field.ftype h),
   fun h => Zap.FieldType.noConfusion h⟩

/-- C1, amended: the object- and array-marshaling capability checks do
precede all concrete-type checks — any value implementing either dispatches
to `Object`/`Array`. The stringer capability check, however, comes after
the concrete-type and error arms (and before the map/reflect fallback): a
value whose only matching capability is `fmt.Stringer` dispatches to
`Stringer`, but a duration or time value, though it implements the stringer
capability, resolves to its concrete `Duration`/`Time` branch. -/
theorem C1_amended_dispatch (key : String) (d : Int) (t : Zap.GoTime) (s : Nat) :
    (∀ v, Zap.implementsObjectMarshaler v = true →
      (Zap.Any key (some v)).ftype = .ObjectMarshalerType) ∧
    (∀ v, Zap.implementsArrayMarshaler v = true →
      (Zap.Any key (some v)).ftype = .ArrayMarshalerType) ∧
    Zap.Any key (some (.vStringerOnly s)) = Zap.Stringer key (.vStringerOnly s) ∧
    (Zap.implementsStringer (.vDuration d) = true ∧
      Zap.Any key (some (.vDuration d)) = Zap.Duration key d) ∧
    (Zap.implementsStringer (.vTime t) = true ∧
      Zap.Any key (some (.vTime t)) = Zap.TimeF key t) := by
  refine ⟨?_, ?_, rfl, ⟨rfl, rfl⟩, ⟨rfl, rfl⟩⟩
  · intro v h
    cases v <;> first | rfl | exact absurd h (by simp [Zap.implementsObjectMarshaler])
  · intro v h
    cases v <;> first | rfl | exact absurd h (by simp [Zap.implementsArrayMarshaler])

/-- C1, witness for the amended theorem: concrete object- and
array-marshaler values dispatch to the corresponding discriminants. -/
theorem C1_amended_witness :
    (Zap.Any "k" (some (.vObj 7))).ftype = .ObjectMarshalerType ∧
    (Zap.Any "k" (some (.vArr 9))).ftype = .ArrayMarshalerType :=
  ⟨(C1_amended_dispatch "k" 0 ⟨0, 0⟩ 0).1 (.vObj 7) rfl,
   (C1_amended_dispatch "k" 0 ⟨0, 0⟩ 0).2.1 (.vArr 9) rfl⟩

/-- C3: `Free` clears the logical length to 0 and prepends the buffer to its
pool; a buffer whose capacity exceeds `_size*_maxExcessCap = 4096` bytes is
replaced by a fresh default-capacity (`_size = 1024`) allocation, otherwise
its capacity is preserved (reset in place). -/
theorem C3_free (pool : List ZapBuffer.Buffer) (b : ZapBuffer.Buffer) :
    ZapBuffer.Free pool b =
      ZapBuffer.put pool
        ⟨[], if b.cap > ZapBuffer.size * ZapBuffer.maxExcessCap then
              ZapBuffer.size else b.cap⟩ ∧
    ZapBuffer.size * ZapBuffer.maxExcessCap = 4096 ∧
    ZapBuffer.size = 1024 := by
  refine ⟨?_, rfl, rfl⟩
  obtain ⟨data, cap⟩ := b
  unfold ZapBuffer.Free ZapBuffer.put ZapBuffer.Reset
  by_cases h : cap > ZapBuffer.size * ZapBuffer.maxExcessCap
  · simp [h]
  · simp only [h, if_false]
    by_cases h2 : data.length > 0
    · simp [h2]
    · have : data = [] := by
        cases data with
        | nil => rfl
        | cons x xs => simp at h2
      simp [h2, this]

/-- C5: any finite sequence of `AppendByte`/`AppendBytes`/`AppendString`
calls on a fresh (empty) buffer leaves `Bytes()` equal to the in-order
concatenation of all appended bytes and `Len()` equal to the total appended
byte count; appending an empty byte slice or empty string is an exact
no-op. -/
theorem C5_append_sequences (cap : Nat) (ops : List ZapBuffer.Op)
    (b : ZapBuffer.Buffer) :
    ZapBuffer.Bytes (ZapBuffer.run ⟨[], cap⟩ ops) = ZapBuffer.opsBytes ops ∧
    ZapBuffer.Len (ZapBuffer.run ⟨[], cap⟩ ops) =
      (ops.map (fun op => (ZapBuffer.opBytes op).length)).sum ∧
    ZapBuffer.AppendBytes b [] = b ∧
    ZapBuffer.AppendString b [] = b := by
  have h := ZapBuffer.run_data ops ⟨[], cap⟩
  refine ⟨?_, ?_, rfl, rfl⟩
  · simp [ZapBuffer.Bytes, h]
  · simp [ZapBuffer.Len, h, ZapBuffer.opsBytes_length]

/-- Branch-level characterisation of the optimized `AppendString`: the
content always becomes `data ++ s` (unless `s` is empty), and the capacity
is untouched when the remaining capacity suffices, else becomes
`max(2*cap, len+needed, _size)`. -/
theorem ZapBufferOpt.appendString_spec (b : ZapBufferOpt.Buffer) (s : List Nat) :
    (ZapBufferOpt.AppendString b s).data =
      (if s.length = 0 then b.data else b.data ++ s) ∧
    (ZapBufferOpt.AppendString b s).cap =
      (if s.length = 0 then b.cap
       else if (s.length : Int) ≤ (b.cap : Int) - (b.data.length : Int) then b.cap
       else max (max (b.cap * 2) (b.data.length + s.length)) ZapBufferOpt.size) := by
  dsimp only [ZapBufferOpt.AppendString]
  constructor
  · split_ifs <;> rfl
  · split_ifs <;>
      first
        | rfl
        | omega
        | (simp only [Nat.max_def]; split_ifs <;> omega)

/-- C4: the optimized `AppendString` of the unnamed buffer variant leaves
exactly the content and length the plain append-based `AppendString` of
src/buffer/buffer.go produces; when the remaining capacity suffices the
append is in place (capacity unchanged, content extended), and otherwise
the new capacity equals — in particular is at least —
`max(2*cap, len + len(s), 1024)`. -/
theorem C4_appendString_refines (b : ZapBufferOpt.Buffer) (s : List Nat) (c : Nat) :
    (ZapBufferOpt.AppendString b s).data = (ZapBuffer.AppendString ⟨b.data, c⟩ s).data ∧
    (ZapBufferOpt.AppendString b s).data.length =
      (ZapBuffer.AppendString ⟨b.data, c⟩ s).data.length ∧
    ((s.length : Int) ≤ (b.cap : Int) - (b.data.length : Int) →
      (ZapBufferOpt.AppendString b s).cap = b.cap ∧
      (ZapBufferOpt.AppendString b s).data = b.data ++ s ∨ s.length = 0) ∧
    (s.length ≠ 0 → (b.cap : Int) - (b.data.length : Int) < (s.length : Int) →
      (ZapBufferOpt.AppendString b s).cap =
        max (max (b.cap * 2) (b.data.length + s.length)) ZapBufferOpt.size ∧
      b.cap * 2 ≤ (ZapBufferOpt.AppendString b s).cap ∧
      b.data.length + s.length ≤ (ZapBufferOpt.AppendString b s).cap ∧
      ZapBufferOpt.size ≤ (ZapBufferOpt.AppendString b s).cap) := by
  obtain ⟨hdata, hcap⟩ := ZapBufferOpt.appendString_spec b s
  refine ⟨?_, ?_, ?_, ?_⟩
  · rw [hdata]
    unfold ZapBuffer.AppendString
    split_ifs <;> rfl
  · rw [hdata]
    unfold ZapBuffer.AppendString
    split_ifs <;> rfl
  · intro h1
    by_cases h0 : s.length = 0
    · exact Or.inr h0
    · refine Or.inl ⟨?_, ?_⟩
      · rw [hcap]; simp [h0, h1]
      · rw [hdata]; simp [h0]
  · intro h0 h1
    have hmax : (ZapBufferOpt.AppendString b s).cap =
        max (max (b.cap * 2) (b.data.length + s.length)) ZapBufferOpt.size := by
      rw [hcap]
      have : ¬ (s.length : Int) ≤ (b.cap : Int) - (b.data.length : Int) := by omega
      simp [h0, this]
    refine ⟨hmax, ?_, ?_, ?_⟩ <;> rw [hmax] <;> simp [Nat.max_def] <;> split_ifs <;> omega

/-- C4, witness: with content `[1,2]` and capacity 10, appending two bytes
fits and keeps the capacity; with capacity 3 it does not fit, and the new
capacity is `max(max(6, 4), 1024) = 1024`. -/
theorem C4_witness :
    (ZapBufferOpt.AppendString ⟨[1, 2], 10⟩ [7, 8]).cap = 10 ∧
    (ZapBufferOpt.AppendString ⟨[1, 2], 3⟩ [9, 9]).cap = 1024 := by
  constructor
  · rcases (C4_appendString_refines ⟨[1, 2], 10⟩ [7, 8] 0).2.2.1 (by norm_num) with h | h
    · exact h.1
    · exact absurd h (by norm_num)
  · have h := (C4_appendString_refines ⟨[1, 2], 3⟩ [9, 9] 0).2.2.2
      (by norm_num) (by norm_num)
    rw [h.1]; decide

/-- C7: `Time(key, t)` uses the compact encoding — `TimeType` discriminant,
integer payload `t.UnixNano()` (which in range is exactly the instant in
nanoseconds), location in the reference slot — precisely when the instant
lies in the signed 64-bit nanosecond range, and the full encoding
(`TimeFullType` with the whole time value in the reference slot)
otherwise. -/
theorem C7_time_encoding (key : String) (t : Zap.GoTime) :
    (-(2 ^ 63) ≤ t.ns → t.ns ≤ 2 ^ 63 - 1 →
      Zap.TimeF key t = ⟨key, .TimeType, t.UnixNano, "", .iloc t.loc⟩ ∧
      t.UnixNano = t.ns) ∧
    (t.ns < -(2 ^ 63) ∨ 2 ^ 63 - 1 < t.ns →
      Zap.TimeF key t = ⟨key, .TimeFullType, 0, "", .itimeFull t⟩) := by
  constructor
  · intro h1 h2
    refine ⟨?_, Zap.unixNano_of_range t h1 h2⟩
    unfold Zap.TimeF
    have hb : (t.Before Zap.minTimeInt64 || t.After Zap.maxTimeInt64) = false := by
      simp only [Zap.GoTime.Before, Zap.GoTime.After, Zap.minTimeInt64,
        Zap.maxTimeInt64, Bool.or_eq_false_iff, decide_eq_false_iff_not]
      constructor <;> omega
    rw [hb]
    simp
  · intro h
    unfold Zap.TimeF
    have hb : (t.Before Zap.minTimeInt64 || t.After Zap.maxTimeInt64) = true := by
      simp only [Zap.GoTime.Before, Zap.GoTime.After, Zap.minTimeInt64,
        Zap.maxTimeInt64, Bool.or_eq_true, decide_eq_true_eq]
      omega
    rw [hb]
    simp

/-- C7, witness: the instant 5ns (location 3) is in range and gets the
compact encoding with integer payload 5; the instant `2^63` ns is out of
range and gets the full encoding. -/
theorem C7_witness :
    (Zap.TimeF "k" ⟨5, 3⟩ = ⟨"k", .TimeType, (⟨5, 3⟩ : Zap.GoTime).UnixNano, "", .iloc 3⟩ ∧
     (⟨5, 3⟩ : Zap.GoTime).UnixNano = 5) ∧
    Zap.TimeF "k" ⟨2 ^ 63, 0⟩ = ⟨"k", .TimeFullType, 0, "", .itimeFull ⟨2 ^ 63, 0⟩⟩ :=
  ⟨(C7_time_encoding "k" ⟨5, 3⟩).1 (by norm_num) (by norm_num),
   (C7_time_encoding "k" ⟨2 ^ 63, 0⟩).2 (Or.inr (by norm_num))⟩

/-- C8: the shared nil-field template is never changed by constructing nil
fields — `nilField` copies the template by value (Go struct assignment) and
sets the key on the copy only, so the template keeps its empty key and nil
payload, and two `nilField` calls yield fields that agree with the template
in everything but their own keys (hence are independent of each other). -/
theorem C8_nil_template (k k1 k2 : String) :
    Zap.nilField k = { Zap.nilReflectField with key := k } ∧
    Zap.nilReflectField = ⟨"", .ReflectType, 0, "", .inil⟩ ∧
    (Zap.nilField k1).key = k1 ∧
    (Zap.nilField k2).key = k2 ∧
    { Zap.nilField k1 with key := "" } = Zap.nilReflectField ∧
    ((Zap.nilField k1).ftype = (Zap.nilField k2).ftype ∧
     (Zap.nilField k1).integer = (Zap.nilField k2).integer ∧
     (Zap.nilField k1).str = (Zap.nilField k2).str ∧
     (Zap.nilField k1).iface = (Zap.nilField k2).iface) ∧
    (k1 ≠ k2 → Zap.nilField k1 ≠ Zap.nilField k2) :=
  ⟨rfl, rfl, rfl, rfl, rfl, ⟨rfl, rfl, rfl, rfl⟩,
   fun hne h => hne (congrArg Zap.Field.key h)⟩

/-- C8, witness: two nil fields with distinct keys are distinct values. -/
theorem C8_witness : Zap.nilField "a" ≠ Zap.nilField "b" :=
  (C8_nil_template "x" "a" "b").2.2.2.2.2.2 (by decide)

/-- C9: the unsigned constructors store their value in the signed 64-bit
integer payload by two's-complement reinterpretation: the payload is
congruent to `v` modulo `2^64` and lies in `[-2^63, 2^63)`, values above
`2^63 - 1` appear negative, and reinterpreting the payload as a uint64 bit
pattern recovers `v` exactly; `Uintptr` stores the same payload, `Uint`
goes through `Uint64`, the pointer forms store the identical payload, and
the narrower widths embed value-preservingly. -/
theorem C9_uint_twos_complement (key : String) (v w : Nat) :
    (v < 2 ^ 64 →
      ((Zap.Uint64 key v).integer % 2 ^ 64 = (v : Int) % 2 ^ 64 ∧
       -(2 ^ 63) ≤ (Zap.Uint64 key v).integer ∧
       (Zap.Uint64 key v).integer < 2 ^ 63) ∧
      (2 ^ 63 - 1 < v → (Zap.Uint64 key v).integer < 0) ∧
      Zap.toUInt64bits (Zap.Uint64 key v).integer = v ∧
      (Zap.Uintptr key v).integer = (Zap.Uint64 key v).integer ∧
      Zap.Uint key v = Zap.Uint64 key v ∧
      Zap.Uintp key (some v) = Zap.Uint64 key v ∧
      Zap.Uint64p key (some v) = Zap.Uint64 key v ∧
      Zap.Uintptrp key (some v) = Zap.Uintptr key v) ∧
    (w < 2 ^ 32 →
      (Zap.Uint32 key w).integer = (w : Int) ∧
      Zap.toUInt64bits (Zap.Uint32 key w).integer = w) := by
  have hint : (Zap.Uint64 key v).integer = Zap.toInt64 v := rfl
  constructor
  · intro hv
    refine ⟨?_, ?_, ?_, rfl, rfl, rfl, rfl, rfl⟩
    · rw [hint]; unfold Zap.toInt64; split <;> constructor <;> try constructor
      all_goals omega
    · intro hbig; rw [hint]; unfold Zap.toInt64; split <;> omega
    · rw [hint]; unfold Zap.toInt64 Zap.toUInt64bits; split <;> omega
  · intro hw
    refine ⟨rfl, ?_⟩
    unfold Zap.toUInt64bits
    have : (Zap.Uint32 key w).integer = (w : Int) := rfl
    rw [this]; omega

/-- C9, witness: `2^63 + 5` is stored as the negative payload
`-(2^63) + 5 = -9223372036854775803` and recovered exactly. -/
theorem C9_witness :
    (Zap.Uint64 "k" (2 ^ 63 + 5)).integer < 0 ∧
    Zap.toUInt64bits (Zap.Uint64 "k" (2 ^ 63 + 5)).integer = 2 ^ 63 + 5 :=
  ⟨((C9_uint_twos_complement "k" (2 ^ 63 + 5) 0).1 (by norm_num)).2.1 (by norm_num),
   ((C9_uint_twos_complement "k" (2 ^ 63 + 5) 0).1 (by norm_num)).2.2.1⟩
